import Mathlib

/-!
Verification of the file-serving core of `core/corehttp/gateway_handler_unixfs_file.go`
(go-ipfs gateway `serveFile` handler).

The Go function `serveFile` is embedded shallowly as a pure function from the
request-relevant inputs (size query result, symlink flag, display name, the
system MIME registry, the sniffing result, the rewind-seek result, the
responder's data-sent report) to a trace of observable events plus the state
of the content adapter at hand-off.  External collaborators
(`addCacheControlHeaders`, `addContentDispositionHeader`, `mime.TypeByExtension`,
`mimetype.DetectReader`, `ServeContent`, the metrics sink) appear as inputs or
as events in the trace, exactly at the point the Go code invokes them.
-/

namespace GatewayFile

/-- Embedding of Go `path.Ext` (`gopath.Ext`): the suffix of `name` beginning at
the final dot in the final slash-separated element, or `""` if there is none.
Implemented by scanning the characters from the end, stopping at a `/`. -/
def goExtAux : List Char → List Char → Option (List Char)
  | [], _ => none
  | c :: rest, acc =>
    if c = '/' then none
    else if c = '.' then some (c :: acc)
    else goExtAux rest (c :: acc)

/-- Go `path.Ext` on a string. -/
def goExt (name : String) : String :=
  match goExtAux name.data.reverse [] with
  | none => ""
  | some l => ⟨l⟩

/-- Observable events of one `serveFile` request, in program order. -/
inductive Event where
  /-- call to `addCacheControlHeaders` (sets caching headers on the writer) -/
  | cacheControl : Event
  /-- call to `addContentDispositionHeader` (sets filename header on the writer) -/
  | contentDisposition : Event
  /-- the `file.Size()` query -/
  | sizeQuery : Event
  /-- construction of the `lazySeeker` adapter over the file -/
  | mkAdapter : Event
  /-- the `mime.TypeByExtension` registry lookup -/
  | extLookup : Event
  /-- `mimetype.DetectReader` reading a prefix of the content stream -/
  | sniffRead : Event
  /-- `content.Seek(0, io.SeekStart)` after sniffing -/
  | rewindSeek : Event
  /-- `w.Header().Set("Content-Type", v)` -/
  | setContentType (v : String) : Event
  /-- wrapping the writer in `statusResponseWriter` -/
  | wrapWriter : Event
  /-- delegation to `ServeContent` (the conditional/range responder) -/
  | serveContent : Event
  /-- one latency observation on `unixfsFileGetMetric`, labelled by namespace -/
  | observeMetric (ns : String) : Event
  /-- `http.Error(w, msg, status)` followed by `return` -/
  | httpError (status : Nat) (msg : String) : Event
deriving DecidableEq, Repr

/-- The request-relevant inputs of one `serveFile` call. -/
structure ServeInput where
  /-- result of `file.Size()`; `Except.error ()` models an unknown size -/
  sizeRes : Except Unit Int
  /-- whether `file` is a `*files.Symlink` -/
  isSymlink : Bool
  /-- the name returned by `addContentDispositionHeader` -/
  name : String
  /-- `mime.TypeByExtension`: the system MIME registry, `""` when unmapped -/
  extMime : String → String
  /-- result of `mimetype.DetectReader` on the content stream -/
  detectRes : Except String String
  /-- whether `content.Seek(0, io.SeekStart)` after sniffing succeeds -/
  rewindOk : Bool
  /-- the `dataSent` result reported by `ServeContent` -/
  dataSent : Bool
  /-- `contentPath.Namespace()`, used only as the metric label -/
  ns : String

/-- Result of one `serveFile` call: the event trace, the adapter's logical
offset at the moment it is handed to `ServeContent` (`none` when the responder
is never invoked), and whether the underlying file source was read during
content-type resolution. -/
structure ServeResult where
  trace : List Event
  handoffOffset : Option Nat
  srcConsumed : Bool
deriving DecidableEq, Repr

/-- The Content-Type normalization of lines 74–76: strip the parameters from a
`text/html;...` value, pass every other value through unchanged. -/
def normalizeHtml (ct : String) : String :=
  if "text/html;".isPrefixOf ct then "text/html" else ct

/-- The tail of the trace shared by all success paths: set the Content-Type
header, wrap the writer, delegate to `ServeContent`, and observe the latency
metric exactly when `dataSent` is reported true (lines 80–93). -/
def tailEvents (inp : ServeInput) (ct : String) : List Event :=
  [Event.setContentType ct, Event.wrapWriter, Event.serveContent] ++
    (if inp.dataSent then [Event.observeMetric inp.ns] else [])

/-- Shallow embedding of `serveFile` (lines 22–94 of
`gateway_handler_unixfs_file.go`), producing the event trace and the adapter
hand-off state. -/
def serveFile (inp : ServeInput) : ServeResult :=
  let pre := [Event.cacheControl, Event.contentDisposition, Event.sizeQuery]
  match inp.sizeRes with
  | Except.error _ =>
      ⟨pre ++ [Event.httpError 502 "cannot serve files with unknown sizes"], none, false⟩
  | Except.ok _ =>
      let pre := pre ++ [Event.mkAdapter]
      if inp.isSymlink then
        ⟨pre ++ tailEvents inp "inode/symlink", some 0, false⟩
      else
        let pre := pre ++ [Event.extLookup]
        let ext := inp.extMime (goExt inp.name)
        if ext = "" then
          match inp.detectRes with
          | Except.error e =>
              ⟨pre ++ [Event.sniffRead,
                 Event.httpError 500 ("cannot detect content-type: " ++ e)], none, true⟩
          | Except.ok m =>
              if inp.rewindOk then
                ⟨pre ++ [Event.sniffRead, Event.rewindSeek] ++
                   tailEvents inp (normalizeHtml m), some 0, true⟩
              else
                ⟨pre ++ [Event.sniffRead, Event.rewindSeek,
                   Event.httpError 500 "seeker can't seek"], none, true⟩
        else
          ⟨pre ++ tailEvents inp (normalizeHtml ext), some 0, false⟩

/-- The content type resolved by lines 47–69, before the `text/html;`
normalization of lines 74–76: the symlink literal, the non-empty registry
value, or the sniffed value; `none` when resolution fails (sniff error, or
rewind failure after sniffing). -/
def resolvedType (inp : ServeInput) : Option String :=
  if inp.isSymlink then some "inode/symlink"
  else
    let ext := inp.extMime (goExt inp.name)
    if ext = "" then
      match inp.detectRes with
      | Except.error _ => none
      | Except.ok m => if inp.rewindOk then some m else none
    else some ext

/-- Number of latency observations in a trace. -/
def countObs (tr : List Event) : Nat :=
  tr.countP fun e => match e with
    | Event.observeMetric _ => true
    | _ => false

/-- Event `a` occurs strictly before event `b` in trace `tr`. -/
def precedes (a b : Event) (tr : List Event) : Prop :=
  ∃ t1 t2, tr = t1 ++ a :: t2 ∧ b ∈ t2

/-- Seek origin, as Go's `io.SeekStart` / `io.SeekCurrent` / `io.SeekEnd`. -/
inductive Whence where
  | start : Whence
  | current : Whence
  | fromEnd : Whence
deriving DecidableEq, Repr

/-- Modelled from the spec: the `SeekableContentAdapter` (`lazySeeker`), whose
implementation file is not under `src/` (only its construction at lines 40–43
is).  Per spec §4.1/§3: a logical cursor `offset ∈ [0, size]` over a
forward-only, size-known content source whose own read position is `srcPos`;
`bytes` is the full underlying content. -/
structure LazySeeker where
  bytes : List Nat
  size : Nat
  offset : Nat
  srcPos : Nat
deriving DecidableEq, Repr

/-- Reading `n` bytes sequentially from the forward-only source positioned at
`pos`: each single read yields the byte at the source's current position and
advances it; reads past the end yield nothing. -/
def sourceReadFrom (bytes : List Nat) : Nat → Nat → List Nat
  | _, 0 => []
  | pos, n + 1 =>
    match bytes.get? pos with
    | none => []
    | some b => b :: sourceReadFrom bytes (pos + 1) n

/-- Modelled from the spec (§4.1): `seek` translates the origin plus known size
into an absolute target offset and fails with an invalid-offset error when the
target is negative or exceeds the size; it only moves the logical cursor. -/
def LazySeeker.seekTarget (s : LazySeeker) (off : Int) (w : Whence) : Int :=
  match w with
  | Whence.start => off
  | Whence.current => (s.offset : Int) + off
  | Whence.fromEnd => (s.size : Int) + off

/-- Modelled from the spec (§4.1): validity check and cursor move of `seek`. -/
def LazySeeker.seek (s : LazySeeker) (off : Int) (w : Whence) :
    Except String (LazySeeker × Int) :=
  let target : Int := s.seekTarget off w
  if target < 0 ∨ (s.size : Int) < target then Except.error "invalid seek offset"
  else Except.ok ({ s with offset := target.toNat }, target)

/-- Modelled from the spec (§4.1): `read` first repositions the forward-only
source at the logical cursor — restarting it from 0 when it is ahead of the
cursor, then discarding forward — and then reads up to `n` bytes sequentially.
Returns the bytes read and the updated adapter. -/
def LazySeeker.read (s : LazySeeker) (n : Nat) : List Nat × LazySeeker :=
  let sp := if s.offset < s.srcPos then 0 else s.srcPos
  let discarded := sourceReadFrom s.bytes sp (s.offset - sp)
  let chunk := sourceReadFrom s.bytes (sp + discarded.length) n
  (chunk, { s with offset := s.offset + chunk.length,
                   srcPos := s.offset + chunk.length })

/-- Sequentially reading `n` bytes from the forward-only source positioned at
`pos` yields exactly the slice of the content starting at `pos`. -/
theorem sourceReadFrom_eq (bytes : List Nat) :
    ∀ (n pos : Nat), sourceReadFrom bytes pos n = (bytes.drop pos).take n := by
  intro n
  induction n with
  | zero => intro pos; simp [sourceReadFrom]
  | succ m ih =>
    intro pos
    cases h : bytes[pos]? with
    | none =>
      have hlen : bytes.length ≤ pos := by
        by_contra hc
        rw [List.getElem?_eq_getElem (Nat.lt_of_not_le hc)] at h
        exact Option.noConfusion h
      simp [sourceReadFrom, List.get?_eq_getElem?, h, List.drop_eq_nil_of_le hlen]
    | some b =>
      have hlt : pos < bytes.length := by
        by_contra hc
        rw [List.getElem?_eq_none (Nat.le_of_not_lt hc)] at h
        exact Option.noConfusion h
      have hb : bytes[pos] = b := by
        rw [List.getElem?_eq_getElem hlt] at h
        exact Option.some.inj h
      rw [List.drop_eq_getElem_cons hlt, hb]
      simp [sourceReadFrom, List.get?_eq_getElem?, h, ih (pos + 1)]

/-- Reading from the adapter returns the bytes of the underlying content
starting at the logical cursor, for every adapter state — in particular when
the forward-only source's position is ahead of the cursor and the source must
be re-read from the start. -/
theorem LazySeeker.read_fst (s : LazySeeker) (n : Nat) :
    (s.read n).fst = (s.bytes.drop s.offset).take n := by
  unfold LazySeeker.read
  simp only [sourceReadFrom_eq, List.length_take, List.length_drop]
  by_cases hsp : s.offset < s.srcPos
  · simp only [hsp, if_true]
    rcases Nat.le_total s.offset s.bytes.length with hle | hgt
    · rw [show 0 + min (s.offset - 0) (s.bytes.length - 0) = s.offset from by omega]
    · rw [List.drop_eq_nil_of_le (by omega), List.drop_eq_nil_of_le hgt]
  · have hle' : s.srcPos ≤ s.offset := Nat.le_of_not_lt hsp
    simp only [hsp, if_false]
    rcases Nat.le_total s.offset s.bytes.length with hle | hgt
    · rw [show s.srcPos + min (s.offset - s.srcPos) (s.bytes.length - s.srcPos)
            = s.offset from by omega]
    · rw [List.drop_eq_nil_of_le (by omega), List.drop_eq_nil_of_le hgt]

/-- C7: for the seekable adapter over a size-known forward-only source, every
valid seek request `(offset, origin)` resolves to a target in `[0, size]`, and
a subsequent read returns exactly the bytes of the underlying content starting
at that logical offset — for every prior adapter state, including states whose
source position is ahead of the target (backward seek, source re-read from the
start). -/
theorem lazySeeker_seek_read_correct (s : LazySeeker) (off : Int) (w : Whence)
    (s' : LazySeeker) (t : Int) (n : Nat)
    (h : s.seek off w = Except.ok (s', t)) :
    0 ≤ t ∧ t ≤ (s.size : Int) ∧
      (s'.read n).fst = (s.bytes.drop t.toNat).take n := by
  simp only [LazySeeker.seek] at h
  split at h
  · exact Except.noConfusion h
  · rename_i hcond
    push_neg at hcond
    injection h with h'
    injection h' with hs ht
    subst ht
    refine ⟨hcond.1, hcond.2, ?_⟩
    rw [← hs, LazySeeker.read_fst]

/-- Witness for C7 at a concrete backward seek: adapter over five bytes with
logical cursor 4 and source position 5, seek −3 relative to current (target 1),
then read 2 bytes. -/
theorem lazySeeker_seek_read_correct_witness :
    0 ≤ (1 : Int) ∧ (1 : Int) ≤ ((5 : Nat) : Int) ∧
      ((⟨[10, 20, 30, 40, 50], 5, 1, 5⟩ : LazySeeker).read 2).fst
        = (([10, 20, 30, 40, 50] : List Nat).drop (Int.toNat 1)).take 2 :=
  lazySeeker_seek_read_correct ⟨[10, 20, 30, 40, 50], 5, 4, 5⟩ (-3) Whence.current
    ⟨[10, 20, 30, 40, 50], 5, 1, 5⟩ 1 2
    (by simp [LazySeeker.seek, LazySeeker.seekTarget])

/-- Every `serveFile` trace starts with the cache-control call, the
content-disposition call and the size query, in that order (lines 27–33). -/
theorem serveFile_trace_shape (inp : ServeInput) :
    ∃ rest, (serveFile inp).trace =
      Event.cacheControl :: Event.contentDisposition :: Event.sizeQuery :: rest := by
  obtain ⟨sz, sym, name, extMime, det, rwk, ds, ns⟩ := inp
  cases sz <;> cases sym <;> cases det <;> cases rwk <;>
    by_cases h : extMime (goExt name) = "" <;>
      simp [serveFile, tailEvents, h]

/-- C1: the latency metric is observed exactly once if and only if the range
responder was invoked and reported that response body bytes were transmitted;
in every other case — `dataSent = false` (304, 416, HEAD-without-body) or an
early error return (502/500) — no observation is recorded. -/
theorem serveFile_metric_iff_data_sent (inp : ServeInput) :
    countObs (serveFile inp).trace =
      (if Event.serveContent ∈ (serveFile inp).trace ∧ inp.dataSent = true
       then 1 else 0) := by
  obtain ⟨sz, sym, name, extMime, det, rwk, ds, ns⟩ := inp
  cases sz <;> cases sym <;> cases det <;> cases rwk <;> cases ds <;>
    by_cases h : extMime (goExt name) = "" <;>
      simp [serveFile, tailEvents, countObs, h]

/-- C5: when the size query fails, `serveFile` responds 502 Bad Gateway and
aborts: no adapter is constructed, no content type is set, the range responder
is never invoked, and no latency metric is recorded. -/
theorem serveFile_unknown_size_502 (inp : ServeInput)
    (h : inp.sizeRes = Except.error ()) :
    Event.httpError 502 "cannot serve files with unknown sizes" ∈ (serveFile inp).trace ∧
    Event.mkAdapter ∉ (serveFile inp).trace ∧
    (∀ v, Event.setContentType v ∉ (serveFile inp).trace) ∧
    Event.serveContent ∉ (serveFile inp).trace ∧
    countObs (serveFile inp).trace = 0 := by
  obtain ⟨sz, sym, name, extMime, det, rwk, ds, ns⟩ := inp
  cases h
  simp [serveFile, countObs]

/-- C10: the cache-control and content-disposition collaborators run before the
size query and before any error exit, so every `http.Error` response is emitted
after their headers were applied to the writer. -/
theorem serveFile_headers_before_error (inp : ServeInput) (st : Nat) (msg : String)
    (h : Event.httpError st msg ∈ (serveFile inp).trace) :
    precedes Event.cacheControl (Event.httpError st msg) (serveFile inp).trace ∧
    precedes Event.contentDisposition (Event.httpError st msg) (serveFile inp).trace := by
  obtain ⟨rest, hsh⟩ := serveFile_trace_shape inp
  rw [hsh] at h ⊢
  have hmem : Event.httpError st msg ∈ Event.sizeQuery :: rest := by
    simpa using h
  exact ⟨⟨[], _, rfl, List.mem_cons_of_mem _ hmem⟩,
         ⟨[Event.cacheControl], _, rfl, hmem⟩⟩

/-- C2: for a non-symlink entry whose name's extension has a non-empty mapping
in the system MIME registry, the resolved content type is exactly the
registry's mapped value — for every byte content (the sniffing result is fully
quantified over) — and the content stream is never sniffed or sought. -/
theorem serveFile_extension_wins (inp : ServeInput)
    (hsym : inp.isSymlink = false)
    (hext : inp.extMime (goExt inp.name) ≠ "") :
    resolvedType inp = some (inp.extMime (goExt inp.name)) ∧
    Event.sniffRead ∉ (serveFile inp).trace ∧
    Event.rewindSeek ∉ (serveFile inp).trace := by
  obtain ⟨sz, sym, name, extMime, det, rwk, ds, ns⟩ := inp
  cases hsym
  cases sz <;> simp [serveFile, resolvedType, tailEvents, hext]

/-- C3: a symlink-flagged entry resolves to the fixed literal `inode/symlink`
for every name, registry and byte content; no extension lookup, no sniff, no
rewind is performed, and the header is set to the un-normalized literal. -/
theorem serveFile_symlink_literal (inp : ServeInput)
    (hsym : inp.isSymlink = true) :
    resolvedType inp = some "inode/symlink" ∧
    Event.extLookup ∉ (serveFile inp).trace ∧
    Event.sniffRead ∉ (serveFile inp).trace ∧
    Event.rewindSeek ∉ (serveFile inp).trace ∧
    (∀ sz, inp.sizeRes = Except.ok sz →
      Event.setContentType "inode/symlink" ∈ (serveFile inp).trace) := by
  obtain ⟨sz, sym, name, extMime, det, rwk, ds, ns⟩ := inp
  cases hsym
  cases sz <;> simp [serveFile, resolvedType, tailEvents]

/-- C9: on the extension-hit path the content stream is neither read nor
sought during content-type resolution: the adapter reaches the range responder
with logical offset 0 and the underlying source unconsumed. -/
theorem serveFile_extension_leaves_stream_untouched (inp : ServeInput) (sz : Int)
    (hsz : inp.sizeRes = Except.ok sz)
    (hsym : inp.isSymlink = false)
    (hext : inp.extMime (goExt inp.name) ≠ "") :
    Event.sniffRead ∉ (serveFile inp).trace ∧
    Event.rewindSeek ∉ (serveFile inp).trace ∧
    (serveFile inp).handoffOffset = some 0 ∧
    (serveFile inp).srcConsumed = false ∧
    Event.serveContent ∈ (serveFile inp).trace := by
  obtain ⟨szr, sym, name, extMime, det, rwk, ds, ns⟩ := inp
  cases hsym
  cases hsz
  simp [serveFile, tailEvents, hext]

/-- C4: the Content-Type header sent for a non-symlink entry is the resolved
type with the `text/html;` parameters stripped: exactly `text/html` when the
resolved type begins with `text/html;`, and the resolved type unchanged
otherwise. -/
theorem serveFile_html_param_strip (inp : ServeInput) (sz : Int)
    (hsz : inp.sizeRes = Except.ok sz)
    (hsym : inp.isSymlink = false)
    (r : String) (hr : resolvedType inp = some r) :
    Event.setContentType (if "text/html;".isPrefixOf r then "text/html" else r)
      ∈ (serveFile inp).trace := by
  obtain ⟨szr, sym, name, extMime, det, rwk, ds, ns⟩ := inp
  cases hsym
  cases hsz
  by_cases hext : extMime (goExt name) = ""
  · cases det with
    | error e => simp [resolvedType, hext] at hr
    | ok m =>
      cases rwk with
      | false => simp [resolvedType, hext] at hr
      | true =>
        simp [resolvedType, hext] at hr
        subst hr
        simp [serveFile, tailEvents, normalizeHtml, hext]
  · simp [resolvedType, hext] at hr
    subst hr
    simp [serveFile, tailEvents, normalizeHtml, hext]

/-- C6: when resolution must sniff (non-symlink, no registry hit) and either
the sniffing read errors or the rewind to offset 0 fails, `serveFile` responds
500 with a short message and aborts: the range responder is never invoked, no
Content-Type header is set, and no metric is recorded. -/
theorem serveFile_resolution_failure_500 (inp : ServeInput) (sz : Int)
    (hsz : inp.sizeRes = Except.ok sz)
    (hsym : inp.isSymlink = false)
    (hext : inp.extMime (goExt inp.name) = "")
    (hfail : (∃ e, inp.detectRes = Except.error e) ∨ inp.rewindOk = false) :
    (∃ msg, Event.httpError 500 msg ∈ (serveFile inp).trace) ∧
    Event.serveContent ∉ (serveFile inp).trace ∧
    (∀ v, Event.setContentType v ∉ (serveFile inp).trace) ∧
    countObs (serveFile inp).trace = 0 := by
  obtain ⟨szr, sym, name, extMime, det, rwk, ds, ns⟩ := inp
  cases hsym
  cases hsz
  dsimp only at hext hfail
  cases det with
  | error e => simp [serveFile, countObs, hext]
  | ok m =>
    rcases hfail with ⟨e, he⟩ | hrw
    · exact Except.noConfusion he
    · cases hrw
      simp [serveFile, countObs, hext]

/-- Normalization never turns a non-empty type into the empty string. -/
theorem normalizeHtml_ne_empty (ct : String) (h : ct ≠ "") :
    normalizeHtml ct ≠ "" := by
  unfold normalizeHtml
  split
  · decide
  · exact h

/-- C8: on every path that reaches the range responder, a non-empty
Content-Type value was explicitly set beforehand — the symlink literal, the
normalized registry value, or the normalized sniffed value (non-empty by the
sniffing library's contract, taken as a hypothesis). -/
theorem serveFile_ctype_set_before_responder (inp : ServeInput)
    (hdet : ∀ m, inp.detectRes = Except.ok m → m ≠ "")
    (h : Event.serveContent ∈ (serveFile inp).trace) :
    ∃ v, v ≠ "" ∧
      precedes (Event.setContentType v) Event.serveContent (serveFile inp).trace := by
  obtain ⟨szr, sym, name, extMime, det, rwk, ds, ns⟩ := inp
  cases szr with
  | error u => simp [serveFile] at h
  | ok sz =>
    cases sym with
    | true =>
      refine ⟨"inode/symlink", by decide,
        [Event.cacheControl, Event.contentDisposition, Event.sizeQuery,
         Event.mkAdapter],
        Event.wrapWriter :: Event.serveContent ::
          (if ds = true then [Event.observeMetric ns] else []), ?_, by simp⟩
      simp [serveFile, tailEvents]
    | false =>
      by_cases hext : extMime (goExt name) = ""
      · cases det with
        | error e => simp [serveFile, hext] at h
        | ok m =>
          cases rwk with
          | false => simp [serveFile, hext] at h
          | true =>
            refine ⟨normalizeHtml m, normalizeHtml_ne_empty m (hdet m rfl),
              [Event.cacheControl, Event.contentDisposition, Event.sizeQuery,
               Event.mkAdapter, Event.extLookup, Event.sniffRead,
               Event.rewindSeek],
              Event.wrapWriter :: Event.serveContent ::
                (if ds = true then [Event.observeMetric ns] else []), ?_, by simp⟩
            simp [serveFile, tailEvents, hext]
      · refine ⟨normalizeHtml (extMime (goExt name)),
          normalizeHtml_ne_empty _ hext,
          [Event.cacheControl, Event.contentDisposition, Event.sizeQuery,
           Event.mkAdapter, Event.extLookup],
          Event.wrapWriter :: Event.serveContent ::
            (if ds = true then [Event.observeMetric ns] else []), ?_, by simp⟩
        simp [serveFile, tailEvents, hext]

/-- Witness for C2: name `x.png`, registry mapping `.png` to `image/png`,
sniffer primed with a different answer. -/
theorem serveFile_extension_wins_witness :
    resolvedType ⟨Except.ok 4, false, "x.png",
        (fun e => if e = ".png" then "image/png" else ""),
        Except.ok "application/pdf", true, true, "ipfs"⟩
      = some ((fun e => if e = ".png" then "image/png" else "") (goExt "x.png")) ∧
    Event.sniffRead ∉ (serveFile ⟨Except.ok 4, false, "x.png",
        (fun e => if e = ".png" then "image/png" else ""),
        Except.ok "application/pdf", true, true, "ipfs"⟩).trace ∧
    Event.rewindSeek ∉ (serveFile ⟨Except.ok 4, false, "x.png",
        (fun e => if e = ".png" then "image/png" else ""),
        Except.ok "application/pdf", true, true, "ipfs"⟩).trace :=
  serveFile_extension_wins _ rfl (by decide)

/-- Witness for C3: a symlink whose name has a recognized extension and whose
content would sniff as a PDF. -/
theorem serveFile_symlink_literal_witness :
    resolvedType ⟨Except.ok 4, true, "x.png", (fun _ => "image/png"),
        Except.ok "application/pdf", true, false, "ipfs"⟩
      = some "inode/symlink" ∧
    Event.extLookup ∉ (serveFile ⟨Except.ok 4, true, "x.png", (fun _ => "image/png"),
        Except.ok "application/pdf", true, false, "ipfs"⟩).trace ∧
    Event.sniffRead ∉ (serveFile ⟨Except.ok 4, true, "x.png", (fun _ => "image/png"),
        Except.ok "application/pdf", true, false, "ipfs"⟩).trace ∧
    Event.rewindSeek ∉ (serveFile ⟨Except.ok 4, true, "x.png", (fun _ => "image/png"),
        Except.ok "application/pdf", true, false, "ipfs"⟩).trace ∧
    (∀ sz, (Except.ok 4 : Except Unit Int) = Except.ok sz →
      Event.setContentType "inode/symlink" ∈
        (serveFile ⟨Except.ok 4, true, "x.png", (fun _ => "image/png"),
          Except.ok "application/pdf", true, false, "ipfs"⟩).trace) :=
  serveFile_symlink_literal _ rfl

/-- Witness for C4: registry value `text/html; charset=utf-8` is sent as
exactly `text/html`. -/
theorem serveFile_html_param_strip_witness :
    Event.setContentType
        (if "text/html;".isPrefixOf "text/html; charset=utf-8" then "text/html"
         else "text/html; charset=utf-8")
      ∈ (serveFile ⟨Except.ok 4, false, "x.html",
          (fun e => if e = ".html" then "text/html; charset=utf-8" else ""),
          Except.ok "application/pdf", true, true, "ipfs"⟩).trace :=
  serveFile_html_param_strip _ 4 rfl rfl "text/html; charset=utf-8" rfl

/-- Witness for C5: a file whose size query fails. -/
theorem serveFile_unknown_size_502_witness :
    Event.httpError 502 "cannot serve files with unknown sizes" ∈
      (serveFile ⟨Except.error (), false, "x.png", (fun _ => "image/png"),
        Except.ok "application/pdf", true, true, "ipfs"⟩).trace ∧
    Event.mkAdapter ∉ (serveFile ⟨Except.error (), false, "x.png", (fun _ => "image/png"),
        Except.ok "application/pdf", true, true, "ipfs"⟩).trace ∧
    (∀ v, Event.setContentType v ∉
      (serveFile ⟨Except.error (), false, "x.png", (fun _ => "image/png"),
        Except.ok "application/pdf", true, true, "ipfs"⟩).trace) ∧
    Event.serveContent ∉ (serveFile ⟨Except.error (), false, "x.png", (fun _ => "image/png"),
        Except.ok "application/pdf", true, true, "ipfs"⟩).trace ∧
    countObs (serveFile ⟨Except.error (), false, "x.png", (fun _ => "image/png"),
        Except.ok "application/pdf", true, true, "ipfs"⟩).trace = 0 :=
  serveFile_unknown_size_502 _ rfl

/-- Witness for C6: no registry hit and a failing sniff read. -/
theorem serveFile_resolution_failure_500_witness :
    (∃ msg, Event.httpError 500 msg ∈
      (serveFile ⟨Except.ok 4, false, "noext", (fun _ => ""),
        Except.error "boom", true, true, "ipfs"⟩).trace) ∧
    Event.serveContent ∉ (serveFile ⟨Except.ok 4, false, "noext", (fun _ => ""),
        Except.error "boom", true, true, "ipfs"⟩).trace ∧
    (∀ v, Event.setContentType v ∉
      (serveFile ⟨Except.ok 4, false, "noext", (fun _ => ""),
        Except.error "boom", true, true, "ipfs"⟩).trace) ∧
    countObs (serveFile ⟨Except.ok 4, false, "noext", (fun _ => ""),
        Except.error "boom", true, true, "ipfs"⟩).trace = 0 :=
  serveFile_resolution_failure_500 _ 4 rfl rfl rfl (Or.inl ⟨"boom", rfl⟩)

/-- Witness for C8: sniffed type on a name with no extension. -/
theorem serveFile_ctype_set_before_responder_witness :
    ∃ v, v ≠ "" ∧
      precedes (Event.setContentType v) Event.serveContent
        (serveFile ⟨Except.ok 4, false, "noext", (fun _ => ""),
          Except.ok "application/pdf", true, true, "ipfs"⟩).trace :=
  serveFile_ctype_set_before_responder _
    (by intro m hm; injection hm with h2; rw [← h2]; decide) (by decide)

/-- Witness for C9: extension hit leaves the stream untouched. -/
theorem serveFile_extension_leaves_stream_untouched_witness :
    Event.sniffRead ∉ (serveFile ⟨Except.ok 4, false, "x.png",
        (fun e => if e = ".png" then "image/png" else ""),
        Except.ok "application/pdf", true, true, "ipfs"⟩).trace ∧
    Event.rewindSeek ∉ (serveFile ⟨Except.ok 4, false, "x.png",
        (fun e => if e = ".png" then "image/png" else ""),
        Except.ok "application/pdf", true, true, "ipfs"⟩).trace ∧
    (serveFile ⟨Except.ok 4, false, "x.png",
        (fun e => if e = ".png" then "image/png" else ""),
        Except.ok "application/pdf", true, true, "ipfs"⟩).handoffOffset = some 0 ∧
    (serveFile ⟨Except.ok 4, false, "x.png",
        (fun e => if e = ".png" then "image/png" else ""),
        Except.ok "application/pdf", true, true, "ipfs"⟩).srcConsumed = false ∧
    Event.serveContent ∈ (serveFile ⟨Except.ok 4, false, "x.png",
        (fun e => if e = ".png" then "image/png" else ""),
        Except.ok "application/pdf", true, true, "ipfs"⟩).trace :=
  serveFile_extension_leaves_stream_untouched _ 4 rfl rfl (by decide)

/-- Witness for C10: collaborator headers precede the 502 error response. -/
theorem serveFile_headers_before_error_witness :
    precedes Event.cacheControl
        (Event.httpError 502 "cannot serve files with unknown sizes")
        (serveFile ⟨Except.error (), false, "x.png", (fun _ => "image/png"),
          Except.ok "application/pdf", true, true, "ipfs"⟩).trace ∧
    precedes Event.contentDisposition
        (Event.httpError 502 "cannot serve files with unknown sizes")
        (serveFile ⟨Except.error (), false, "x.png", (fun _ => "image/png"),
          Except.ok "application/pdf", true, true, "ipfs"⟩).trace :=
  serveFile_headers_before_error _ 502 "cannot serve files with unknown sizes"
    (by decide)

end GatewayFile
